import Mathlib

/-!
Verification of the device messaging and state-coordination core of an IoT
backend (Express + MQTT + Supabase persistence).

The repository ships two variants of the HTTP layer and of the MQTT handler:
`server.js` with `mqtt-handler.js` (the primary build) and a Vercel build
(`src/unnamed/part_000`, with a second MQTT-handler variant appended to
`database.js`).  Both variants are embedded below where they differ.

Modelling conventions:
* JavaScript numbers are embedded as `ℚ` (finite doubles; NaN/Infinity out of
  scope), JS strings as `String`, JS booleans as `Bool`.  A JS value that may
  be `undefined` is an `Option`.
* `JSON.parse` of an inbound payload is external; its outcome is embedded as
  an `Option SensorPayload` argument (`none` = parse failure / exception).
* Supabase tables are embedded as lists of rows inside a `DB` record; each
  fallible insert/upsert takes a `Bool` oracle saying whether the storage
  call fails, so that every error-handling path of the source is a branch of
  the embedded function.  A JS function that can throw is embedded with an
  `Except` result; a function that catches internally returns a plain value.
* `new Date(x).toISOString()` timestamps of outbound payloads are an opaque
  `String` argument; the `timestamp` column of `sensor_data` (a DB-assigned
  instant, compared in `getAllDevicesLatestData` via `new Date(...)`) is
  embedded as the parsed instant, a `Nat` of epoch milliseconds.
-/

/-- A JavaScript value as far as the control endpoints care: numeric, string
or boolean (the domains named by the spec for water-state inputs). -/
inductive JsVal where
  | num (q : ℚ)
  | str (s : String)
  | boolean (b : Bool)
deriving DecidableEq

/-- JS truthiness coercion `Boolean(v)`: 0 and the empty string are falsy,
every other number/string is truthy. -/
def jsToBool : JsVal → Bool
  | .num q => q != 0
  | .str s => s != ""
  | .boolean b => b

/-- JS `parseInt` on a finite number rendered in plain decimal notation:
truncation toward zero. -/
def jsTrunc (q : ℚ) : Int :=
  if 0 ≤ q then ⌊q⌋ else ⌈q⌉

/-- JS `x || d` for a possibly-undefined integer `x` (`undefined` and `0` are
falsy). -/
def jsOrInt : Option Int → Int → Int
  | none, d => d
  | some v, d => if v = 0 then d else v

/-- JS `x || d` for a possibly-undefined boolean `x` (`undefined` and `false`
are falsy). -/
def jsOrBool : Option Bool → Bool → Bool
  | none, d => d
  | some v, d => if v then v else d

/-- JS `x || d` for a possibly-undefined string `x` (`undefined` and `""` are
falsy). -/
def jsOrStr : Option String → String → String
  | none, d => d
  | some s, d => if s = "" then d else s

/-- A row of the `sensor_data` table (spec: `TelemetryRecord`).  `timestamp`
is the record's instant in epoch milliseconds, i.e. the value that
`new Date(item.timestamp)` parses to. -/
structure SensorRow where
  device_id : String
  temperature : Option ℚ
  humidity : Option ℚ
  pressure : Option ℚ
  servo_state : Int
  water_state : Bool
  timestamp : Nat
deriving DecidableEq

/-- A row of the `devices` table (spec: `Device`). -/
structure DeviceRow where
  device_id : String
  device_name : String
  last_seen : Nat
  is_online : Bool
deriving DecidableEq

/-- A row of the `servo_commands` table (spec: `ControlCommand`).  The angle
columns hold whatever JS number the endpoint passed, hence `ℚ`. -/
structure ServoCommandRow where
  device_id : String
  target_angle : ℚ
  final_angle : ℚ
  command_by : String
  status : String
deriving DecidableEq

/-- The Supabase database state touched by the core. -/
structure DB where
  sensor_data : List SensorRow
  devices : List DeviceRow
  servo_commands : List ServoCommandRow
deriving DecidableEq

def emptyDb : DB := ⟨[], [], []⟩

/-! ### database.js -/

/-- `database.js` `saveSensorData`, devices upsert step: Supabase `upsert`
keyed on `device_id` replaces the matching row or inserts a new one. -/
def upsertDevice (devices : List DeviceRow) (row : DeviceRow) : List DeviceRow :=
  if devices.any (fun d => d.device_id == row.device_id) then
    devices.map (fun d => if d.device_id == row.device_id then row else d)
  else
    devices ++ [row]

/-- The decoded sensor payload handed to `saveSensorData` (all fields present,
as built by `handleSensorData`). -/
structure SensorInput where
  device_id : String
  temperature : Option ℚ
  humidity : Option ℚ
  pressure : Option ℚ
  servo_state : Int
  water_state : Bool
deriving DecidableEq

/-- `database.js` `saveSensorData`: inserts into `sensor_data` (with the
`servo_state || 0` / `water_state || false` falsy defaulting of the source,
an identity on already-concrete values), then upserts the device directory
row (`last_seen` = now, `is_online` = true).  A failing sensor insert throws
before the upsert is attempted; a failing device upsert is only logged.  The
returned `DB` is the state after the mutations that did happen; the `Except`
is the JS return/throw. -/
def saveSensorData (db : DB) (now : Nat) (sensorInsertFails deviceUpsertFails : Bool)
    (d : SensorInput) : DB × Except String SensorRow :=
  if sensorInsertFails then
    (db, .error "Sensor data error")
  else
    let row : SensorRow :=
      { device_id := d.device_id
        temperature := d.temperature
        humidity := d.humidity
        pressure := d.pressure
        servo_state := jsOrInt (some d.servo_state) 0
        water_state := jsOrBool (some d.water_state) false
        timestamp := now }
    let db1 : DB := { db with sensor_data := db.sensor_data ++ [row] }
    let dev : DeviceRow :=
      { device_id := d.device_id
        device_name := "Device " ++ d.device_id
        last_seen := now
        is_online := true }
    let db2 : DB :=
      if deviceUpsertFails then db1
      else { db1 with devices := upsertDevice db1.devices dev }
    (db2, .ok row)

/-- `database.js` `saveServoCommand`: append-only insert into
`servo_commands`; a storage error throws. -/
def saveServoCommand (db : DB) (fail : Bool) (row : ServoCommandRow) : Except String DB :=
  if fail then .error "Servo command error"
  else .ok { db with servo_commands := db.servo_commands ++ [row] }

/-- `database.js` `getAllDevicesLatestData`, the per-item step of the
`data.forEach` pass: JS `latestData[item.device_id] = item` keeps the
object-key insertion position on overwrite and appends a new key, and the
guard replaces only when `new Date(item.timestamp) > new Date(old.timestamp)`
(strictly greater, compared as instants). -/
def upsertLatestEntry : List (String × SensorRow) → SensorRow → List (String × SensorRow)
  | [], r => [(r.device_id, r)]
  | (k, v) :: rest, r =>
    if k = r.device_id then
      if v.timestamp < r.timestamp then (k, r) :: rest else (k, v) :: rest
    else
      (k, v) :: upsertLatestEntry rest r

/-- `database.js` `getAllDevicesLatestData`: one linear pass over the fetched
`sensor_data` rows grouping by `device_id` and keeping the record with the
greatest timestamp, then `Object.values`.  The pass is written to be correct
for rows in any order, so the embedding takes the row list as given. -/
def getAllDevicesLatestData (rows : List SensorRow) : List SensorRow :=
  (rows.foldl upsertLatestEntry []).map Prod.snd

/-! ### mqtt-handler.js -/

/-- An MQTT publish as observed by the broker; the payload is the JSON object
literal of the source, an association list in field order. -/
structure MqttMessage where
  topic : String
  payload : List (String × JsVal)
deriving DecidableEq

/-- `mqtt-handler.js` `publishServoCommand`: a no-op returning without
raising when not connected; otherwise publishes on `control/<id>/servo` a
payload with fields `device_id`, `angle` (the `parseInt` of the input),
`command_by`, `timestamp`.  (The handler variant appended to `database.js`
names the angle field `target_angle` instead; the primary
`src/mqtt-handler.js` embedded here names it `angle`.) -/
def publishServoCommand (isConnected : Bool) (deviceId : String) (angle : ℚ)
    (commandBy : String) (nowIso : String) : Option MqttMessage :=
  if !isConnected then none
  else
    some { topic := "control/" ++ deviceId ++ "/servo"
           payload := [("device_id", JsVal.str deviceId),
                       ("angle", JsVal.num ((jsTrunc angle : Int) : ℚ)),
                       ("command_by", JsVal.str commandBy),
                       ("timestamp", JsVal.str nowIso)] }

/-- `mqtt-handler.js` `publishWaterCommand`: a no-op returning without
raising when not connected; otherwise publishes on `control/<id>/water` a
payload with fields `device_id`, `state` (`Boolean(state)`), `command_by`,
`timestamp`. -/
def publishWaterCommand (isConnected : Bool) (deviceId : String) (state : JsVal)
    (commandBy : String) (nowIso : String) : Option MqttMessage :=
  if !isConnected then none
  else
    some { topic := "control/" ++ deviceId ++ "/water"
           payload := [("device_id", JsVal.str deviceId),
                       ("state", JsVal.boolean (jsToBool state)),
                       ("command_by", JsVal.str commandBy),
                       ("timestamp", JsVal.str nowIso)] }

/-- The inbound MQTT sensor payload before normalization (fields may be
absent in the JSON). -/
structure SensorPayload where
  device_id : String
  temperature : Option ℚ
  humidity : Option ℚ
  pressure : Option ℚ
  servo_state : Option Int
  water_state : Option Bool
deriving DecidableEq

/-- `mqtt-handler.js` `handleSensorData`: normalizes the payload
(`servo_state || 0`, `water_state || false`), forwards it to
`saveSensorData`, and catches any storage error, so the message is consumed
either way and the function always returns. -/
def handleSensorData (db : DB) (now : Nat) (sensorInsertFails deviceUpsertFails : Bool)
    (data : SensorPayload) : DB :=
  let sensorData : SensorInput :=
    { device_id := data.device_id
      temperature := data.temperature
      humidity := data.humidity
      pressure := data.pressure
      servo_state := jsOrInt data.servo_state 0
      water_state := jsOrBool data.water_state false }
  (saveSensorData db now sensorInsertFails deviceUpsertFails sensorData).1

/-- JS `s.startsWith(p)`, expressed over the character sequence. -/
def strStartsWith (s p : String) : Bool :=
  p.data.isPrefixOf s.data

/-- JS `s.endsWith(p)`, expressed over the character sequence. -/
def strEndsWith (s p : String) : Bool :=
  p.data.isSuffixOf s.data

/-- `mqtt-handler.js` message routing test for `sensor/.../data` topics:
`topic.startsWith('sensor/') && topic.endsWith('/data')`. -/
def matchesSensorData (topic : String) : Bool :=
  strStartsWith topic "sensor/" && strEndsWith topic "/data"

/-- Routing test for `servo/.../status` topics (checked by the MQTT-handler
variant appended to `database.js`). -/
def matchesServoStatus (topic : String) : Bool :=
  strStartsWith topic "servo/" && strEndsWith topic "/status"

/-- Routing test for `water/.../status` topics (checked by the MQTT-handler
variant appended to `database.js`). -/
def matchesWaterStatus (topic : String) : Bool :=
  strStartsWith topic "water/" && strEndsWith topic "/status"

/-- `src/mqtt-handler.js` `mqttClient.on('message')`: parse the payload
(`none` = `JSON.parse` threw, caught by the surrounding try/catch so the
message is dropped), then dispatch `handleSensorData` only for topics
matching the sensor pattern.  Returns the database state and whether any
handler was dispatched. -/
def onMessage (db : DB) (now : Nat) (sensorInsertFails deviceUpsertFails : Bool)
    (topic : String) (parsed : Option SensorPayload) : DB × Bool :=
  match parsed with
  | none => (db, false)
  | some data =>
    if matchesSensorData topic then
      (handleSensorData db now sensorInsertFails deviceUpsertFails data, true)
    else
      (db, false)

/-! ### server.js and the Vercel variant (src/unnamed/part_000) -/

/-- The HTTP status category of a control response: 200, 400, or 500. -/
inductive HttpResponse where
  | success
  | clientError
  | serverError
deriving DecidableEq

/-- `src/unnamed/part_000` `POST /api/control/servo` (Vercel variant):
rejects a falsy `device_id` or an undefined `angle` with a client error,
clamps `parseInt(angle)` into [0,180] via
`Math.max(0, Math.min(180, parseInt(angle)))`, persists the clamped value as
both `target_angle` and `final_angle`, then publishes it.  Returns the
response category, the database state, and the broker publish (if any). -/
def servoEndpointVercel (db : DB) (connected saveFail : Bool)
    (device_id : Option String) (angle : Option ℚ) (command_by : Option String)
    (nowIso : String) : HttpResponse × DB × Option MqttMessage :=
  match device_id, angle with
  | some d, some a =>
    if d == "" then (.clientError, db, none)
    else
      let validatedAngle : Int := max 0 (min 180 (jsTrunc a))
      let row : ServoCommandRow :=
        { device_id := d
          target_angle := (validatedAngle : ℚ)
          final_angle := (validatedAngle : ℚ)
          command_by := jsOrStr command_by "web_api"
          status := "sent" }
      match saveServoCommand db saveFail row with
      | .error _ => (.serverError, db, none)
      | .ok db' =>
        (.success, db',
          publishServoCommand connected d (validatedAngle : ℚ) (jsOrStr command_by "web_api") nowIso)
  | _, _ => (.clientError, db, none)

/-- `src/server.js` `POST /api/control/servo` (primary variant): same field
checks, but no clamping — the raw `angle` is persisted as `target_angle` and
`final_angle`, and the raw `angle` is handed to `publishServoCommand` (which
applies only `parseInt`). -/
def servoEndpointMain (db : DB) (connected saveFail : Bool)
    (device_id : Option String) (angle : Option ℚ) (command_by : Option String)
    (nowIso : String) : HttpResponse × DB × Option MqttMessage :=
  match device_id, angle with
  | some d, some a =>
    if d == "" then (.clientError, db, none)
    else
      let row : ServoCommandRow :=
        { device_id := d
          target_angle := a
          final_angle := a
          command_by := jsOrStr command_by "web_api"
          status := "sent" }
      match saveServoCommand db saveFail row with
      | .error _ => (.serverError, db, none)
      | .ok db' =>
        (.success, db', publishServoCommand connected d a (jsOrStr command_by "web_api") nowIso)
  | _, _ => (.clientError, db, none)

/-- `POST /api/control/water` (identical in both variants): rejects a falsy
`device_id` or an undefined `state` with a client error, then publishes via
`publishWaterCommand`.  No persistence call appears on this route. -/
def waterEndpoint (db : DB) (connected : Bool)
    (device_id : Option String) (state : Option JsVal) (command_by : Option String)
    (nowIso : String) : HttpResponse × DB × Option MqttMessage :=
  match device_id, state with
  | some d, some s =>
    if d == "" then (.clientError, db, none)
    else (.success, db, publishWaterCommand connected d s (jsOrStr command_by "web_api") nowIso)
  | _, _ => (.clientError, db, none)

/-- The invariant carried through the `forEach` pass of
`getAllDevicesLatestData`: over the set `P` of rows processed so far, every
map entry is keyed by its record's `device_id`, holds a processed record of
maximal timestamp for that device, every processed device has an entry, and
the keys are distinct. -/
def AggInv (P : SensorRow → Prop) (m : List (String × SensorRow)) : Prop :=
  (∀ p ∈ m, p.2.device_id = p.1 ∧ P p.2 ∧
    ∀ s, P s → s.device_id = p.1 → s.timestamp ≤ p.2.timestamp)
  ∧ (∀ s, P s → ∃ p ∈ m, p.1 = s.device_id)
  ∧ (m.map Prod.fst).Nodup

/-- Sample telemetry rows used by concrete instances below. -/
def row0 : SensorRow := ⟨"A", some 21, some 55, none, 0, false, 1⟩

def row1 : SensorRow := ⟨"B", some 22, none, none, 90, true, 2⟩

/-- Two distinct rows of the same device carrying the same timestamp
(timestamps are not guaranteed unique per device). -/
def rowA1 : SensorRow := ⟨"A", some 1, none, none, 0, false, 5⟩

def rowA2 : SensorRow := ⟨"A", some 2, none, none, 0, false, 5⟩

/-! ### Lemmas about the latest-per-device aggregation -/

lemma aggInv_congr {P Q : SensorRow → Prop} {m : List (String × SensorRow)}
    (hpq : ∀ s, P s ↔ Q s) (h : AggInv P m) : AggInv Q m := by
  obtain ⟨h1, h2, h3⟩ := h
  refine ⟨?_, ?_, h3⟩
  · intro p hp
    obtain ⟨a, b, c⟩ := h1 p hp
    exact ⟨a, (hpq _).mp b, fun s hs => c s ((hpq s).mpr hs)⟩
  · intro s hs
    exact h2 s ((hpq s).mpr hs)

lemma aggInv_nil : AggInv (fun _ => False) ([] : List (String × SensorRow)) :=
  ⟨fun p hp => absurd hp (List.not_mem_nil p), fun _ hs => hs.elim, List.nodup_nil⟩

/-- The keys after one `upsertLatestEntry` step: unchanged, or the new
record's device appended. -/
lemma keys_upsert (m : List (String × SensorRow)) (r : SensorRow) :
    (upsertLatestEntry m r).map Prod.fst = m.map Prod.fst
    ∨ (upsertLatestEntry m r).map Prod.fst = m.map Prod.fst ++ [r.device_id] := by
  induction m with
  | nil => right; rfl
  | cons a tl ih =>
    obtain ⟨k, v⟩ := a
    by_cases hk : k = r.device_id
    · left
      by_cases hts : v.timestamp < r.timestamp <;> simp [upsertLatestEntry, hk, hts]
    · rcases ih with h | h
      · left; simp [upsertLatestEntry, hk, h]
      · right; simp [upsertLatestEntry, hk, h]

lemma mem_keys_upsert {m : List (String × SensorRow)} {r : SensorRow} {x : String}
    (h : x ∈ (upsertLatestEntry m r).map Prod.fst) :
    x ∈ m.map Prod.fst ∨ x = r.device_id := by
  rcases keys_upsert m r with hk | hk
  · rw [hk] at h; exact Or.inl h
  · rw [hk] at h
    rcases List.mem_append.mp h with h | h
    · exact Or.inl h
    · exact Or.inr (by simpa using h)

lemma keys_sub_upsert {m : List (String × SensorRow)} {r : SensorRow} {x : String}
    (h : x ∈ m.map Prod.fst) : x ∈ (upsertLatestEntry m r).map Prod.fst := by
  rcases keys_upsert m r with hk | hk <;> rw [hk]
  · exact h
  · exact List.mem_append_left _ h

/-- One `upsertLatestEntry` step preserves `AggInv`, extending the processed
set by the new record. -/
lemma aggInv_upsert :
    ∀ (m : List (String × SensorRow)) (P : SensorRow → Prop) (r : SensorRow),
      AggInv P m → AggInv (fun s => P s ∨ s = r) (upsertLatestEntry m r) := by
  intro m
  induction m with
  | nil =>
    intro P r h
    obtain ⟨-, h2, -⟩ := h
    refine ⟨?_, ?_, by simp [upsertLatestEntry]⟩
    · intro p hp
      simp only [upsertLatestEntry, List.mem_singleton] at hp
      subst hp
      refine ⟨rfl, Or.inr rfl, ?_⟩
      intro s hs _
      rcases hs with hs | rfl
      · obtain ⟨p, hp, -⟩ := h2 s hs
        exact absurd hp (List.not_mem_nil p)
      · exact le_refl _
    · intro s hs
      rcases hs with hs | rfl
      · obtain ⟨p, hp, -⟩ := h2 s hs
        exact absurd hp (List.not_mem_nil p)
      · exact ⟨(s.device_id, s), by simp [upsertLatestEntry], rfl⟩
  | cons a tl ih =>
    obtain ⟨k, v⟩ := a
    intro P r h
    obtain ⟨h1, h2, h3⟩ := h
    have hv := h1 (k, v) (List.mem_cons_self _ _)
    have h3' : (k :: tl.map Prod.fst).Nodup := by simpa using h3
    have hknotl : k ∉ tl.map Prod.fst := (List.nodup_cons.mp h3').1
    have htlkeys : (tl.map Prod.fst).Nodup := (List.nodup_cons.mp h3').2
    by_cases hk : k = r.device_id
    · have tail_entry : ∀ p ∈ tl, p.2.device_id = p.1 ∧ (P p.2 ∨ p.2 = r) ∧
          ∀ s, (P s ∨ s = r) → s.device_id = p.1 → s.timestamp ≤ p.2.timestamp := by
        intro p hp
        have hp1 := h1 p (List.mem_cons_of_mem _ hp)
        refine ⟨hp1.1, Or.inl hp1.2.1, ?_⟩
        intro s hs hdev
        rcases hs with hs | rfl
        · exact hp1.2.2 s hs hdev
        · exfalso
          have hpk : p.1 ∈ tl.map Prod.fst := List.mem_map.mpr ⟨p, hp, rfl⟩
          have hpk2 : p.1 = k := by rw [← hdev, ← hk]
          exact hknotl (hpk2 ▸ hpk)
      by_cases hts : v.timestamp < r.timestamp
      · rw [show upsertLatestEntry ((k, v) :: tl) r = (k, r) :: tl from by
          simp [upsertLatestEntry, hk, hts]]
        refine ⟨?_, ?_, by simpa using h3⟩
        · intro p hp
          rcases List.mem_cons.mp hp with rfl | hp
          · refine ⟨hk.symm, Or.inr rfl, ?_⟩
            intro s hs hdev
            rcases hs with hs | rfl
            · exact le_trans (hv.2.2 s hs hdev) (le_of_lt hts)
            · exact le_refl _
          · exact tail_entry p hp
        · intro s hs
          rcases hs with hs | rfl
          · obtain ⟨p, hp, hpk⟩ := h2 s hs
            rcases List.mem_cons.mp hp with rfl | hp
            · exact ⟨(k, r), List.mem_cons_self _ _, hpk⟩
            · exact ⟨p, List.mem_cons_of_mem _ hp, hpk⟩
          · exact ⟨(k, s), List.mem_cons_self _ _, hk⟩
      · rw [show upsertLatestEntry ((k, v) :: tl) r = (k, v) :: tl from by
          simp [upsertLatestEntry, hk, hts]]
        have hle : r.timestamp ≤ v.timestamp := Nat.le_of_not_lt hts
        refine ⟨?_, ?_, h3⟩
        · intro p hp
          rcases List.mem_cons.mp hp with rfl | hp
          · refine ⟨hv.1, Or.inl hv.2.1, ?_⟩
            intro s hs hdev
            rcases hs with hs | rfl
            · exact hv.2.2 s hs hdev
            · exact hle
          · exact tail_entry p hp
        · intro s hs
          rcases hs with hs | rfl
          · exact h2 s hs
          · exact ⟨(k, v), List.mem_cons_self _ _, hk⟩
    · rw [show upsertLatestEntry ((k, v) :: tl) r = (k, v) :: upsertLatestEntry tl r from by
        simp [upsertLatestEntry, hk]]
      have hQ : AggInv (fun s => P s ∧ s.device_id ≠ k) tl := by
        refine ⟨?_, ?_, htlkeys⟩
        · intro p hp
          have hp1 := h1 p (List.mem_cons_of_mem _ hp)
          have hpk : p.1 ≠ k := by
            intro e
            exact hknotl (e ▸ List.mem_map.mpr ⟨p, hp, rfl⟩)
          refine ⟨hp1.1, ⟨hp1.2.1, by rw [hp1.1]; exact hpk⟩, ?_⟩
          intro s hs hdev
          exact hp1.2.2 s hs.1 hdev
        · intro s hs
          obtain ⟨p, hp, hpk⟩ := h2 s hs.1
          rcases List.mem_cons.mp hp with rfl | hp
          · exact absurd hpk.symm hs.2
          · exact ⟨p, hp, hpk⟩
      obtain ⟨i1, i2, i3⟩ := ih (fun s => P s ∧ s.device_id ≠ k) r hQ
      refine ⟨?_, ?_, ?_⟩
      · intro p hp
        rcases List.mem_cons.mp hp with rfl | hp
        · refine ⟨hv.1, Or.inl hv.2.1, ?_⟩
          intro s hs hdev
          rcases hs with hs | rfl
          · exact hv.2.2 s hs hdev
          · exact absurd hdev.symm hk
        · have hp1 := i1 p hp
          refine ⟨hp1.1, ?_, ?_⟩
          · rcases hp1.2.1 with hq | rfl
            · exact Or.inl hq.1
            · exact Or.inr rfl
          · intro s hs hdev
            rcases hs with hs | rfl
            · have hsk : s.device_id ≠ k := by
                intro e
                have hmem : p.1 ∈ (upsertLatestEntry tl r).map Prod.fst :=
                  List.mem_map.mpr ⟨p, hp, rfl⟩
                have hpk : p.1 = k := by rw [← hdev, e]
                rcases mem_keys_upsert (hpk ▸ hmem) with hbad | hbad
                · exact hknotl hbad
                · exact hk hbad
              exact hp1.2.2 s (Or.inl ⟨hs, hsk⟩) hdev
            · exact hp1.2.2 s (Or.inr rfl) hdev
      · intro s hs
        rcases hs with hs | rfl
        · obtain ⟨p, hp, hpk⟩ := h2 s hs
          rcases List.mem_cons.mp hp with rfl | hp
          · exact ⟨(k, v), List.mem_cons_self _ _, hpk⟩
          · have hmem : p.1 ∈ (upsertLatestEntry tl r).map Prod.fst :=
              keys_sub_upsert (List.mem_map.mpr ⟨p, hp, rfl⟩)
            obtain ⟨q, hq, hqk⟩ := List.mem_map.mp hmem
            exact ⟨q, List.mem_cons_of_mem _ hq, by rw [hqk, hpk]⟩
        · obtain ⟨q, hq, hqk⟩ := i2 s (Or.inr rfl)
          exact ⟨q, List.mem_cons_of_mem _ hq, hqk⟩
      · refine (List.nodup_cons.mpr ⟨?_, i3⟩ : (k :: (upsertLatestEntry tl r).map Prod.fst).Nodup)
        intro hbad
        rcases mem_keys_upsert hbad with hbad' | hbad'
        · exact hknotl hbad'
        · exact hk hbad'

lemma aggInv_foldl (rows : List SensorRow) :
    ∀ (P : SensorRow → Prop) (m : List (String × SensorRow)),
      AggInv P m → AggInv (fun s => P s ∨ s ∈ rows) (rows.foldl upsertLatestEntry m) := by
  induction rows with
  | nil =>
    intro P m h
    exact aggInv_congr (fun s => by simp) h
  | cons r rest ih =>
    intro P m h
    have h2 := ih _ _ (aggInv_upsert m P r h)
    refine aggInv_congr (fun s => ?_) h2
    simp only [List.mem_cons]
    tauto

/-- The pass of `getAllDevicesLatestData` satisfies its invariant over the
whole input list. -/
lemma agg_inv (rows : List SensorRow) :
    AggInv (fun s => s ∈ rows) (rows.foldl upsertLatestEntry []) :=
  aggInv_congr (fun s => by simp) (aggInv_foldl rows (fun _ => False) [] aggInv_nil)

/-- Every aggregated record comes from the input and has maximal timestamp
among the input records of its device. -/
lemma mem_agg {rows : List SensorRow} {r : SensorRow}
    (h : r ∈ getAllDevicesLatestData rows) :
    r ∈ rows ∧ ∀ s ∈ rows, s.device_id = r.device_id → s.timestamp ≤ r.timestamp := by
  obtain ⟨h1, -, -⟩ := agg_inv rows
  unfold getAllDevicesLatestData at h
  obtain ⟨p, hp, hpr⟩ := List.mem_map.mp h
  obtain ⟨ha, hb, hc⟩ := h1 p hp
  subst hpr
  exact ⟨hb, fun s hs hdev => hc s hs (by rw [hdev]; exact ha)⟩

/-- Every input device is represented in the aggregation result. -/
lemma agg_cover {rows : List SensorRow} {s : SensorRow} (h : s ∈ rows) :
    ∃ r ∈ getAllDevicesLatestData rows, r.device_id = s.device_id := by
  obtain ⟨h1, h2, -⟩ := agg_inv rows
  obtain ⟨p, hp, hpk⟩ := h2 s h
  refine ⟨p.2, List.mem_map.mpr ⟨p, hp, rfl⟩, ?_⟩
  rw [(h1 p hp).1, hpk]

lemma map_congr_mem {α β : Type _} {l : List α} {f g : α → β}
    (h : ∀ a ∈ l, f a = g a) : l.map f = l.map g := by
  induction l with
  | nil => rfl
  | cons a tl ih =>
    simp only [List.map_cons, h a (List.mem_cons_self a tl)]
    rw [ih (fun x hx => h x (List.mem_cons_of_mem _ hx))]

/-- The aggregation result holds pairwise distinct device ids. -/
lemma agg_keys_nodup (rows : List SensorRow) :
    ((getAllDevicesLatestData rows).map SensorRow.device_id).Nodup := by
  obtain ⟨h1, -, h3⟩ := agg_inv rows
  unfold getAllDevicesLatestData
  rw [List.map_map]
  have heq : (rows.foldl upsertLatestEntry []).map (SensorRow.device_id ∘ Prod.snd)
      = (rows.foldl upsertLatestEntry []).map Prod.fst :=
    map_congr_mem (fun p hp => (h1 p hp).1)
  rw [heq]
  exact h3

/-- Inserting a record whose device has no entry yet appends it. -/
lemma upsert_not_mem (m : List (String × SensorRow)) (r : SensorRow)
    (h : r.device_id ∉ m.map Prod.fst) :
    upsertLatestEntry m r = m ++ [(r.device_id, r)] := by
  induction m with
  | nil => rfl
  | cons a tl ih =>
    obtain ⟨k, v⟩ := a
    have hk : ¬(k = r.device_id) := by
      intro e
      apply h
      rw [List.map_cons, ← e]
      exact List.mem_cons_self _ _
    simp only [upsertLatestEntry, if_neg hk]
    rw [ih (fun hm => h (by rw [List.map_cons]; exact List.mem_cons_of_mem _ hm))]
    rfl

/-- Folding rows whose devices are all fresh and pairwise distinct just
appends them all. -/
lemma foldl_all_new :
    ∀ (out : List SensorRow) (m : List (String × SensorRow)),
      (m.map Prod.fst ++ out.map SensorRow.device_id).Nodup →
      out.foldl upsertLatestEntry m = m ++ out.map (fun r => (r.device_id, r)) := by
  intro out
  induction out with
  | nil => intro m _; simp
  | cons r rest ih =>
    intro m h
    have hnot : r.device_id ∉ m.map Prod.fst := by
      have hdisj := (List.nodup_append.mp h).2.2
      intro hm
      exact hdisj hm (by simp)
    rw [List.foldl_cons, upsert_not_mem m r hnot, ih]
    · simp
    · have heq : (m ++ [(r.device_id, r)]).map Prod.fst ++ rest.map SensorRow.device_id
          = m.map Prod.fst ++ ((r :: rest).map SensorRow.device_id) := by
        simp
      rw [heq]
      exact h

/-- On a list with pairwise distinct device ids the aggregation is the
identity; in particular the aggregation is idempotent. -/
lemma agg_of_nodup_keys (out : List SensorRow)
    (h : (out.map SensorRow.device_id).Nodup) :
    getAllDevicesLatestData out = out := by
  unfold getAllDevicesLatestData
  rw [foldl_all_new out [] (by simpa using h)]
  simp only [List.nil_append, List.map_map]
  have : (Prod.snd ∘ fun r : SensorRow => (r.device_id, r)) = id := rfl
  rw [this, List.map_id]

lemma find?_isSome_of_mem {α : Type _} (p : α → Bool) {l : List α} {a : α}
    (ha : a ∈ l) (hpa : p a = true) : ∃ b, l.find? p = some b := by
  induction l with
  | nil => cases ha
  | cons x tl ih =>
    by_cases hx : p x = true
    · exact ⟨x, List.find?_cons_of_pos _ hx⟩
    · rcases List.mem_cons.mp ha with rfl | ha'
      · exact absurd hpa hx
      · obtain ⟨b, hb⟩ := ih ha'
        exact ⟨b, by rw [List.find?_cons_of_neg _ (by simpa using hx)]; exact hb⟩

/-! ### Claim theorems: StateAggregator (C3, C4) -/

/-- C3: for every finite collection of telemetry records,
`getAllDevicesLatestData` returns exactly one record per distinct
`device_id` occurring in the collection — the returned records carry
pairwise distinct device ids, every device occurring in the input is
represented, and each returned record is an input record of its device
whose (instant-valued) timestamp is greatest; the empty collection yields
the empty result rather than an error. -/
theorem latest_per_device_correct :
    getAllDevicesLatestData [] = []
    ∧ ∀ rows : List SensorRow,
        ((getAllDevicesLatestData rows).map SensorRow.device_id).Nodup
        ∧ (∀ r ∈ getAllDevicesLatestData rows,
            r ∈ rows ∧ ∀ s ∈ rows, s.device_id = r.device_id → s.timestamp ≤ r.timestamp)
        ∧ (∀ s ∈ rows, ∃ r ∈ getAllDevicesLatestData rows, r.device_id = s.device_id) :=
  ⟨rfl, fun rows =>
    ⟨agg_keys_nodup rows, fun _ hr => mem_agg hr, fun _ hs => agg_cover hs⟩⟩

/-- Witness for C3 at a concrete one-row collection. -/
theorem latest_per_device_correct_witness :
    row0 ∈ [row0]
    ∧ ∀ s ∈ [row0], s.device_id = row0.device_id → s.timestamp ≤ row0.timestamp :=
  (latest_per_device_correct.2 [row0]).2.1 row0 (by decide)

/-- C4 counterexample: with two distinct records of the same device carrying
equal timestamps, the pass keeps the first seen (strict-greater guard), so a
permutation of the input changes the record returned for that device — the
claim's unconditional order-independence is false. -/
theorem aggregation_order_counterexample :
    ([rowA1, rowA2].Perm [rowA2, rowA1])
    ∧ (getAllDevicesLatestData [rowA1, rowA2]).find? (fun r => r.device_id == "A")
      ≠ (getAllDevicesLatestData [rowA2, rowA1]).find? (fun r => r.device_id == "A") :=
  ⟨List.Perm.swap _ _ _, by decide⟩

/-- C4 (amended): the aggregation is a deterministic function, it is
idempotent in the strong sense that re-aggregating its own output returns
that output, and it is order-independent — equal results keyed by
`device_id` for every permutation of the input — provided no two distinct
records of the same device carry the same timestamp (without that proviso
the guard `new Date(item.timestamp) > new Date(old.timestamp)` keeps the
first record seen, so ties are resolved by input order). -/
theorem aggregation_perm_invariant (rows rows' : List SensorRow)
    (hperm : rows.Perm rows')
    (hdet : ∀ r ∈ rows, ∀ s ∈ rows,
      r.device_id = s.device_id → r.timestamp = s.timestamp → r = s) :
    (∀ d : String,
        (getAllDevicesLatestData rows).find? (fun r => r.device_id == d)
          = (getAllDevicesLatestData rows').find? (fun r => r.device_id == d))
    ∧ getAllDevicesLatestData (getAllDevicesLatestData rows) = getAllDevicesLatestData rows := by
  constructor
  · intro d
    rcases hfa : (getAllDevicesLatestData rows).find? (fun r => r.device_id == d) with _ | r
    · rcases hfb : (getAllDevicesLatestData rows').find? (fun r => r.device_id == d) with _ | r'
      · rw [hfa, hfb]
      · exfalso
        have hmem' : r' ∈ getAllDevicesLatestData rows' := List.mem_of_find?_eq_some hfb
        have hdev' : r'.device_id = d := by
          have := List.find?_some hfb
          exact eq_of_beq (by simpa using this)
        have hr'rows : r' ∈ rows := hperm.mem_iff.mpr (mem_agg hmem').1
        obtain ⟨rr, hrr, hrrdev⟩ := agg_cover hr'rows
        obtain ⟨b, hb⟩ := find?_isSome_of_mem (fun r => r.device_id == d) hrr
          (by simp [hrrdev, hdev'])
        rw [hfa] at hb
        cases hb
    · rcases hfb : (getAllDevicesLatestData rows').find? (fun r => r.device_id == d) with _ | r'
      · exfalso
        have hmem : r ∈ getAllDevicesLatestData rows := List.mem_of_find?_eq_some hfa
        have hdev : r.device_id = d := by
          have := List.find?_some hfa
          exact eq_of_beq (by simpa using this)
        have hrrows' : r ∈ rows' := hperm.mem_iff.mp (mem_agg hmem).1
        obtain ⟨rr, hrr, hrrdev⟩ := agg_cover hrrows'
        obtain ⟨b, hb⟩ := find?_isSome_of_mem (fun r => r.device_id == d) hrr
          (by simp [hrrdev, hdev])
        rw [hfb] at hb
        cases hb
      · have hmem : r ∈ getAllDevicesLatestData rows := List.mem_of_find?_eq_some hfa
        have hdev : r.device_id = d := by
          have := List.find?_some hfa
          exact eq_of_beq (by simpa using this)
        have hmem' : r' ∈ getAllDevicesLatestData rows' := List.mem_of_find?_eq_some hfb
        have hdev' : r'.device_id = d := by
          have := List.find?_some hfb
          exact eq_of_beq (by simpa using this)
        obtain ⟨hrrows, hrmax⟩ := mem_agg hmem
        obtain ⟨hr'rows', hr'max⟩ := mem_agg hmem'
        have hr'rows : r' ∈ rows := hperm.mem_iff.mpr hr'rows'
        have hrrows' : r ∈ rows' := hperm.mem_iff.mp hrrows
        have hts1 : r'.timestamp ≤ r.timestamp := hrmax r' hr'rows (by rw [hdev', hdev])
        have hts2 : r.timestamp ≤ r'.timestamp := hr'max r hrrows' (by rw [hdev, hdev'])
        have : r = r' :=
          hdet r hrrows r' hr'rows (by rw [hdev, hdev']) (le_antisymm hts2 hts1)
        rw [hfa, hfb, this]
  · exact agg_of_nodup_keys _ (agg_keys_nodup rows)

/-- Witness for C4 (amended) at a concrete two-row collection and its swap. -/
theorem aggregation_perm_invariant_witness :
    (getAllDevicesLatestData [row0, row1]).find? (fun r => r.device_id == "A")
      = (getAllDevicesLatestData [row1, row0]).find? (fun r => r.device_id == "A") :=
  (aggregation_perm_invariant [row0, row1] [row1, row0]
    (List.Perm.swap _ _ _) (by decide)).1 "A"

/-! ### Lemmas about JS primitives and the device upsert -/

/-- `parseInt` is the identity on values that are already integers. -/
lemma jsTrunc_intCast (n : Int) : jsTrunc ((n : Int) : ℚ) = n := by
  unfold jsTrunc
  by_cases h : (0 : ℚ) ≤ (n : ℚ)
  · rw [if_pos h, Int.floor_intCast]
  · rw [if_neg h, Int.ceil_intCast]

/-- The upserted device row is present after `upsertDevice`. -/
lemma self_mem_upsertDevice (l : List DeviceRow) (row : DeviceRow) :
    row ∈ upsertDevice l row := by
  unfold upsertDevice
  by_cases h : l.any (fun d => d.device_id == row.device_id) = true
  · rw [if_pos h]
    obtain ⟨x, hx, hpx⟩ := List.any_eq_true.mp h
    exact List.mem_map.mpr ⟨x, hx, by simp [hpx]⟩
  · rw [if_neg h]
    exact List.mem_append_right _ (List.mem_singleton.mpr rfl)

/-! ### Claim theorems: CommandPublisher and the control endpoints -/

/-- C1 counterexample: the `server.js` servo endpoint applies no clamping —
at input angle 200 it persists `final_angle` 200, which is outside [0,180]
and differs from the truncate-and-clamp of the input. -/
theorem servo_unclamped_counterexample :
    (servoEndpointMain emptyDb true false (some "dev1") (some 200) none
        "t").2.1.servo_commands.map ServoCommandRow.final_angle = [(200 : ℚ)]
    ∧ ¬((200 : ℚ) ≤ 180)
    ∧ (200 : ℚ) ≠ ((max 0 (min 180 (jsTrunc (200 : ℚ))) : Int) : ℚ) := by
  refine ⟨by decide, by norm_num, by decide⟩

/-- C1 (amended): on the Vercel variant (`src/unnamed/part_000`) the claim
holds — the persisted `target_angle`/`final_angle` and the published angle
all equal `Math.max(0, Math.min(180, parseInt(angle)))`, which lies in
[0,180], and integer inputs already in [0,180] pass through unchanged.  On
the `server.js` variant there is no clamping: the raw input is persisted as
`final_angle` and the published value is only `parseInt`-truncated. -/
theorem servo_endpoint_behavior (db : DB) (connected : Bool) (d : String)
    (hd : d ≠ "") (a : ℚ) (cb : Option String) (now : String) :
    ((servoEndpointVercel db connected false (some d) (some a) cb now).2.1.servo_commands
      = db.servo_commands
        ++ [{ device_id := d
              target_angle := ((max 0 (min 180 (jsTrunc a)) : Int) : ℚ)
              final_angle := ((max 0 (min 180 (jsTrunc a)) : Int) : ℚ)
              command_by := jsOrStr cb "web_api"
              status := "sent" }])
    ∧ (0 : Int) ≤ max 0 (min 180 (jsTrunc a))
    ∧ max 0 (min 180 (jsTrunc a)) ≤ 180
    ∧ ((servoEndpointVercel db true false (some d) (some a) cb now).2.2
      = some { topic := "control/" ++ d ++ "/servo"
               payload := [("device_id", JsVal.str d),
                           ("angle", JsVal.num ((max 0 (min 180 (jsTrunc a)) : Int) : ℚ)),
                           ("command_by", JsVal.str (jsOrStr cb "web_api")),
                           ("timestamp", JsVal.str now)] })
    ∧ (∀ n : Int, 0 ≤ n → n ≤ 180 → a = ((n : Int) : ℚ) → max 0 (min 180 (jsTrunc a)) = n)
    ∧ ((servoEndpointMain db connected false (some d) (some a) cb now).2.1.servo_commands
      = db.servo_commands
        ++ [{ device_id := d
              target_angle := a
              final_angle := a
              command_by := jsOrStr cb "web_api"
              status := "sent" }])
    ∧ ((servoEndpointMain db true false (some d) (some a) cb now).2.2
      = some { topic := "control/" ++ d ++ "/servo"
               payload := [("device_id", JsVal.str d),
                           ("angle", JsVal.num ((jsTrunc a : Int) : ℚ)),
                           ("command_by", JsVal.str (jsOrStr cb "web_api")),
                           ("timestamp", JsVal.str now)] }) := by
  have hbeq : (d == "") = false := by simp [hd]
  refine ⟨?_, ?_, ?_, ?_, ?_, ?_, ?_⟩
  · simp [servoEndpointVercel, saveServoCommand, hbeq]
  · exact le_max_left _ _
  · exact max_le (by norm_num) (min_le_left _ _)
  · simp [servoEndpointVercel, saveServoCommand, publishServoCommand, hbeq]
    generalize jsTrunc a = t
    have hc : (0 : ℚ) ⊔ 180 ⊓ ((t : Int) : ℚ) = ((0 ⊔ 180 ⊓ t : Int) : ℚ) := by
      push_cast
      rfl
    rw [hc, jsTrunc_intCast]
  · intro n h0 h1 ha
    rw [ha, jsTrunc_intCast]
    omega
  · simp [servoEndpointMain, saveServoCommand, hbeq]
  · simp [servoEndpointMain, saveServoCommand, publishServoCommand, hbeq]

/-- Witness for C1 (amended): bounds of the clamped value at input 200. -/
theorem servo_endpoint_behavior_witness :
    (0 : Int) ≤ max 0 (min 180 (jsTrunc (200 : ℚ)))
    ∧ max 0 (min 180 (jsTrunc (200 : ℚ))) ≤ 180 :=
  ⟨(servo_endpoint_behavior emptyDb true "dev1" (by decide) 200 none "t").2.1,
   (servo_endpoint_behavior emptyDb true "dev1" (by decide) 200 none "t").2.2.1⟩

/-- C2 counterexample: a validated water command (success response, publish
delivered) leaves the database untouched — water commands are never recorded
via the persistence collaborator, contradicting the claim that every
validated command is recorded regardless of publish success. -/
theorem water_not_recorded_counterexample :
    (waterEndpoint emptyDb true (some "dev1") (some (JsVal.boolean true)) none "t").1
      = HttpResponse.success
    ∧ ((waterEndpoint emptyDb true (some "dev1") (some (JsVal.boolean true)) none
        "t").2.2).isSome = true
    ∧ (waterEndpoint emptyDb true (some "dev1") (some (JsVal.boolean true)) none "t").2.1
      = emptyDb := by
  refine ⟨by decide, by decide, by decide⟩

/-- C2 (amended): publishing while not connected is a no-op that returns
without raising, for both command kinds; a validated servo command is
recorded via `saveServoCommand` regardless of connection state (here: while
disconnected, where no publish happens); but a water command is never
recorded — the water route touches no persistence at all. -/
theorem command_audit_behavior (db : DB) (d : String) (hd : d ≠ "") (a : ℚ)
    (s : JsVal) (cb : Option String) (now : String) :
    publishServoCommand false d a (jsOrStr cb "web_api") now = none
    ∧ publishWaterCommand false d s (jsOrStr cb "web_api") now = none
    ∧ ((servoEndpointVercel db false false (some d) (some a) cb now).1
        = HttpResponse.success)
    ∧ ((servoEndpointVercel db false false (some d) (some a) cb now).2.1.servo_commands.length
        = db.servo_commands.length + 1)
    ∧ ((servoEndpointVercel db false false (some d) (some a) cb now).2.2 = none)
    ∧ ((servoEndpointMain db false false (some d) (some a) cb now).2.1.servo_commands.length
        = db.servo_commands.length + 1)
    ∧ ((servoEndpointMain db false false (some d) (some a) cb now).2.2 = none)
    ∧ (∀ (db' : DB) (conn : Bool) (did : Option String) (st : Option JsVal)
        (cb' : Option String) (now' : String),
        (waterEndpoint db' conn did st cb' now').2.1 = db') := by
  have hbeq : (d == "") = false := by simp [hd]
  refine ⟨rfl, rfl, ?_, ?_, ?_, ?_, ?_, ?_⟩
  · simp [servoEndpointVercel, saveServoCommand, hbeq]
  · simp [servoEndpointVercel, saveServoCommand, hbeq]
  · simp [servoEndpointVercel, saveServoCommand, publishServoCommand, hbeq]
  · simp [servoEndpointMain, saveServoCommand, hbeq]
  · simp [servoEndpointMain, saveServoCommand, publishServoCommand, hbeq]
  · intro db' conn did st cb' now'
    match did, st with
    | none, _ => rfl
    | some d', none => rfl
    | some d', some s' =>
      by_cases hd' : (d' == "") = true
      · simp [waterEndpoint, hd']
      · simp [waterEndpoint, hd']

/-- Witness for C2 (amended): while disconnected, the servo command still
lands in the audit table and nothing is published. -/
theorem command_audit_behavior_witness :
    (servoEndpointVercel emptyDb false false (some "dev1") (some 90) none
        "t").2.1.servo_commands.length = emptyDb.servo_commands.length + 1 :=
  (command_audit_behavior emptyDb "dev1" (by decide) 90 (JsVal.boolean true)
    none "t").2.2.2.1

/-- C7 counterexample: the primary `src/mqtt-handler.js` publishes the servo
payload with field `angle` and the water payload with field `state` — a
delivered servo publish has no `target_angle` field and a delivered water
publish has no `water_state` field. -/
theorem publish_fields_counterexample :
    ((publishServoCommand true "dev1" 90 "web_api" "t").bind
        (fun m => m.payload.lookup "target_angle") = none)
    ∧ ((publishServoCommand true "dev1" 90 "web_api" "t").isSome = true)
    ∧ ((publishWaterCommand true "dev1" (JsVal.boolean true) "web_api" "t").bind
        (fun m => m.payload.lookup "water_state") = none)
    ∧ ((publishWaterCommand true "dev1" (JsVal.boolean true) "web_api" "t").isSome = true) :=
  ⟨rfl, rfl, rfl, rfl⟩

/-- C7 (amended): every delivered servo publish goes to
`control/{device_id}/servo` with payload fields `device_id`, `angle` (the
`parseInt` of the input — an integer, but not range-restricted by the
publisher), `command_by` and `timestamp`; every delivered water publish goes
to `control/{device_id}/water` with payload fields `device_id`, `state` (a
boolean), `command_by` and `timestamp`. -/
theorem publish_command_shape (d : String) (a : ℚ) (s : JsVal) (cb now : String) :
    publishServoCommand true d a cb now
      = some { topic := "control/" ++ d ++ "/servo"
               payload := [("device_id", JsVal.str d),
                           ("angle", JsVal.num ((jsTrunc a : Int) : ℚ)),
                           ("command_by", JsVal.str cb),
                           ("timestamp", JsVal.str now)] }
    ∧ publishWaterCommand true d s cb now
      = some { topic := "control/" ++ d ++ "/water"
               payload := [("device_id", JsVal.str d),
                           ("state", JsVal.boolean (jsToBool s)),
                           ("command_by", JsVal.str cb),
                           ("timestamp", JsVal.str now)] } :=
  ⟨rfl, rfl⟩

/-- C8: the water-state coercion `Boolean(state)` is a total deterministic
function to a boolean — for every present water-state value (numeric,
string or boolean) the request is accepted (never a validation error), and
the published `state` field is exactly `jsToBool` of the input, a `Bool`
(determinism is function-hood of `jsToBool`). -/
theorem water_state_coercion_total (db : DB) (conn : Bool) (d : String)
    (hd : d ≠ "") (s : JsVal) (cb : Option String) (now : String) :
    (waterEndpoint db conn (some d) (some s) cb now).1 = HttpResponse.success
    ∧ ((waterEndpoint db true (some d) (some s) cb now).2.2).bind
        (fun m => m.payload.lookup "state") = some (JsVal.boolean (jsToBool s)) := by
  have hbeq : (d == "") = false := by simp [hd]
  constructor
  · simp [waterEndpoint, hbeq]
  · simp [waterEndpoint, publishWaterCommand, hbeq]
    rfl

/-- Witness for C8 at a numeric water-state input. -/
theorem water_state_coercion_total_witness :
    (waterEndpoint emptyDb true (some "dev1") (some (JsVal.num 3)) none "t").1
      = HttpResponse.success :=
  (water_state_coercion_total emptyDb true "dev1" (by decide) (JsVal.num 3) none "t").1

/-- C9: at the control endpoints (both servo variants and the water route)
an absent or empty-string `device_id` is treated as missing and rejected
with a client error, and an absent `angle`/`state` is rejected; but `angle`
0 and `state` false are accepted, because those fields are only compared
against `undefined`. -/
theorem control_missing_field_checks (db : DB) (conn sf : Bool) (a : Option ℚ)
    (cb : Option String) (now : String) (st : Option JsVal) (d : String)
    (hd : d ≠ "") :
    (servoEndpointVercel db conn sf none a cb now).1 = HttpResponse.clientError
    ∧ (servoEndpointVercel db conn sf (some "") a cb now).1 = HttpResponse.clientError
    ∧ (servoEndpointVercel db conn sf (some d) none cb now).1 = HttpResponse.clientError
    ∧ (servoEndpointMain db conn sf none a cb now).1 = HttpResponse.clientError
    ∧ (servoEndpointMain db conn sf (some "") a cb now).1 = HttpResponse.clientError
    ∧ (servoEndpointMain db conn sf (some d) none cb now).1 = HttpResponse.clientError
    ∧ (waterEndpoint db conn none st cb now).1 = HttpResponse.clientError
    ∧ (waterEndpoint db conn (some "") st cb now).1 = HttpResponse.clientError
    ∧ (waterEndpoint db conn (some d) none cb now).1 = HttpResponse.clientError
    ∧ (servoEndpointVercel db conn false (some d) (some 0) cb now).1 = HttpResponse.success
    ∧ (servoEndpointMain db conn false (some d) (some 0) cb now).1 = HttpResponse.success
    ∧ (waterEndpoint db conn (some d) (some (JsVal.boolean false)) cb now).1
        = HttpResponse.success := by
  have hbeq : (d == "") = false := by simp [hd]
  refine ⟨?_, ?_, ?_, ?_, ?_, ?_, ?_, ?_, ?_, ?_, ?_, ?_⟩
  · cases a <;> rfl
  · cases a <;> simp [servoEndpointVercel]
  · rfl
  · cases a <;> rfl
  · cases a <;> simp [servoEndpointMain]
  · rfl
  · cases st <;> rfl
  · cases st <;> simp [waterEndpoint]
  · rfl
  · simp [servoEndpointVercel, saveServoCommand, hbeq]
  · simp [servoEndpointMain, saveServoCommand, hbeq]
  · simp [waterEndpoint, hbeq]

/-- Witness for C9: `angle` 0 is accepted on the Vercel servo route. -/
theorem control_missing_field_checks_witness :
    (servoEndpointVercel emptyDb true false (some "dev1") (some 0) none "t").1
      = HttpResponse.success :=
  (control_missing_field_checks emptyDb true false (some 0) none "t"
    (some (JsVal.boolean false)) "dev1" (by decide)).2.2.2.2.2.2.2.2.2.1

/-! ### Claim theorems: TopicRouter and TelemetryIngestor -/

/-- C5: an inbound message whose topic matches none of the known patterns
(`sensor/.../data`, `servo/.../status`, `water/.../status`, as the routing
tests of the source check them) dispatches no handler and leaves the
database unchanged; and a payload that fails to parse is dropped — the
handler returns normally with no dispatch and no persisted record — rather
than crashing, retrying, or propagating an error (the surrounding try/catch
makes `onMessage` total). -/
theorem unmatched_or_unparsed_dropped (db : DB) (now : Nat)
    (sensorInsertFails deviceUpsertFails : Bool) :
    ∀ (topic : String) (parsed : Option SensorPayload),
      ((matchesSensorData topic || matchesServoStatus topic || matchesWaterStatus topic)
          = false →
        onMessage db now sensorInsertFails deviceUpsertFails topic parsed = (db, false))
      ∧ (parsed = none →
        onMessage db now sensorInsertFails deviceUpsertFails topic parsed = (db, false)) := by
  intro topic parsed
  constructor
  · intro h
    have hs : matchesSensorData topic = false := by
      cases hh : matchesSensorData topic
      · rfl
      · rw [hh] at h
        simp at h
    cases parsed
    · rfl
    · simp [onMessage, hs]
  · rintro rfl
    rfl

/-- Witness for C5 at a control topic (matched by no inbound pattern). -/
theorem unmatched_or_unparsed_dropped_witness :
    onMessage emptyDb 0 false false "control/dev1/servo"
      (some ⟨"dev1", none, none, none, none, none⟩) = (emptyDb, false) :=
  (unmatched_or_unparsed_dropped emptyDb 0 false false "control/dev1/servo"
    (some ⟨"dev1", none, none, none, none, none⟩)).1 (by decide)

/-- C6: ingesting a telemetry payload produces a record in which a missing
`servo_state` defaults to 0 and a missing `water_state` defaults to false,
appends it to `sensor_data`, and upserts the device directory entry
(`last_seen` = now, `is_online` = true) in the same ingestion (when the
upsert call itself does not fail); a persistence failure on this path is
caught — `handleSensorData` returns normally with the database unchanged,
no exception escaping. -/
theorem telemetry_ingestion_behavior (db : DB) (now : Nat) (df : Bool)
    (data : SensorPayload) (h1 : data.servo_state = none)
    (h2 : data.water_state = none) :
    (∃ r : SensorRow,
      (handleSensorData db now false df data).sensor_data = db.sensor_data ++ [r]
      ∧ r.device_id = data.device_id ∧ r.servo_state = 0 ∧ r.water_state = false
      ∧ r.timestamp = now)
    ∧ (df = false → ∃ dv ∈ (handleSensorData db now false df data).devices,
        dv.device_id = data.device_id ∧ dv.last_seen = now ∧ dv.is_online = true)
    ∧ (∀ df' : Bool, handleSensorData db now true df' data = db) := by
  refine ⟨?_, ?_, fun _ => rfl⟩
  · refine ⟨{ device_id := data.device_id
              temperature := data.temperature
              humidity := data.humidity
              pressure := data.pressure
              servo_state := 0
              water_state := false
              timestamp := now }, ?_, rfl, rfl, rfl, rfl⟩
    cases df <;>
      simp [handleSensorData, saveSensorData, h1, h2, jsOrInt, jsOrBool]
  · rintro rfl
    refine ⟨{ device_id := data.device_id
              device_name := "Device " ++ data.device_id
              last_seen := now
              is_online := true }, ?_, rfl, rfl, rfl⟩
    simp only [handleSensorData, saveSensorData, if_neg (Bool.false_ne_true ∘ id)]
    exact self_mem_upsertDevice _ _

/-- Witness for C6 at a concrete payload with both optional fields absent. -/
theorem telemetry_ingestion_behavior_witness :
    ∃ r : SensorRow,
      (handleSensorData emptyDb 7 false false
          ⟨"dev1", some 21, some 55, none, none, none⟩).sensor_data
        = emptyDb.sensor_data ++ [r]
      ∧ r.device_id = "dev1" ∧ r.servo_state = 0 ∧ r.water_state = false
      ∧ r.timestamp = 7 :=
  (telemetry_ingestion_behavior emptyDb 7 false
    ⟨"dev1", some 21, some 55, none, none, none⟩ rfl rfl).1

/-- C10: within `saveSensorData`, a device-upsert failure is only logged —
the telemetry row is still appended and returned with an ok result and the
device directory is left as it was; whereas a failing telemetry insert
raises before the upsert is attempted, returning the database completely
unchanged. -/
theorem storage_failure_granularity (db : DB) (now : Nat) (d : SensorInput) :
    ((saveSensorData db now false true d).1.devices = db.devices)
    ∧ (∃ r : SensorRow, (saveSensorData db now false true d).2 = Except.ok r
        ∧ (saveSensorData db now false true d).1.sensor_data = db.sensor_data ++ [r])
    ∧ (∀ df : Bool, saveSensorData db now true df d
        = (db, Except.error "Sensor data error")) := by
  refine ⟨rfl, ⟨_, rfl, rfl⟩, fun _ => rfl⟩
